import Mathlib

/-!
# Unix executor: syslog relay and process teardown

A shallow embedding of `client/driver/executor/executor_unix.go`.

* Every method of `UniversalExecutor` becomes a function from the executor
  value before the call to a `Run`: the executor value after the call, the
  externally visible actions the call performed (in order), and the value
  the method returns.
* What the operating system and the helpers defined elsewhere in the
  package answer (`getListener`, `configureLoggers`, `syscall.Kill`,
  `proc.Kill`, `proc.Signal`) and the two package constants
  `noSuchProcessErr` and `finishedErr` are fields of an environment `Env`;
  every theorem quantifies over them.
* A Go `error` is represented by its text, which is all the code inspects.
-/

namespace Executor

/-! ## Data model -/

/-- One element of a Go `[]byte`. -/
abbrev Byte := Nat

/-- A Go `error` value, identified by what `Error()` returns. -/
structure GoError where
  text : String
deriving DecidableEq, Repr

/-- A `syscall.Signal` number. -/
abbrev Signal := Nat

/-- The signal `os.Interrupt` (`syscall.SIGINT`). -/
def Interrupt : Signal := 2

/-- The signal `syscall.SIGKILL`. -/
def SIGKILL : Signal := 9

/-- The severity `syslog.LOG_ERR` of the srslog package. -/
def LOG_ERR : Int := 3

/-- The one-byte slice written after every message. -/
def newline : List Byte := [10]

/-- A record of `logging.SyslogMessage`: the two fields the collector reads. -/
structure SyslogMessage where
  Message : List Byte
  Severity : Int
deriving DecidableEq, Repr

/-- An `io.Writer` sink. `data` holds the bytes the sink has accepted.
`plan` fixes how the coming `Write` calls behave, one entry per call:
`none` accepts every byte and returns a nil error, `some n` accepts only
the first `n` bytes and returns an error. Calls past the end of the plan
succeed. -/
structure Writer where
  data : List Byte
  plan : List (Option Nat)
deriving DecidableEq, Repr

/-- The error a failing sink returns. -/
def shortWrite : GoError := ⟨"short write"⟩

/-- The method `Write(p) (n int, err error)` of a sink: the sink after the
call, the number of bytes accepted and the error. -/
def Writer.Write (w : Writer) (p : List Byte) : Writer × Nat × Option GoError :=
  match w.plan with
  | [] => ({ data := w.data ++ p, plan := [] }, p.length, none)
  | none :: rest => ({ data := w.data ++ p, plan := rest }, p.length, none)
  | some n :: rest =>
      ({ data := w.data ++ p.take n, plan := rest }, (p.take n).length, some shortWrite)

/-- A sink none of whose coming writes fails. -/
def Writer.reliable (w : Writer) : Prop := ∀ o ∈ w.plan, o = none

instance (w : Writer) : Decidable w.reliable := by
  unfold Writer.reliable; infer_instance

/-- The port range of the executor context (`uint` fields). -/
structure ExecutorContext where
  PortLowerBound : Nat
  PortUpperBound : Nat
deriving DecidableEq, Repr

/-- The fields of `syscall.SysProcAttr` that matter to process creation here. -/
structure SysProcAttr where
  Chroot : String
  Setsid : Bool
  Setpgid : Bool
  Pgid : Int
deriving DecidableEq, Repr

/-- The zero value `syscall.SysProcAttr{}`. -/
def SysProcAttr.zero : SysProcAttr :=
  { Chroot := "", Setsid := false, Setpgid := false, Pgid := 0 }

/-- The `exec.Cmd` held by the executor; `SysProcAttr` is a pointer field. -/
structure Cmd where
  Path : String
  Args : List String
  SysProcAttr : Option SysProcAttr
deriving DecidableEq, Repr

/-- The `ExecCommand` the executor was asked to run; `TaskKillSignal` is an
interface value that may be nil. -/
structure ExecCommand where
  Cmd : String
  Args : List String
  TaskKillSignal : Option Signal
deriving DecidableEq, Repr

/-- A channel made by `make(chan *logging.SyslogMessage, capacity)`. -/
structure Chan where
  capacity : Nat
deriving DecidableEq, Repr

/-- A `net.Listener`, seen through `Addr().Network()` and `Addr().String()`. -/
structure Listener where
  network : String
  addr : String
deriving DecidableEq, Repr

/-- The value built by `logging.NewSyslogServer(l, messages, logger)`: the
listener and the channel it was given. -/
structure SyslogServer where
  listener : Listener
  messages : Option Chan
deriving DecidableEq, Repr

/-- The result of a successful launch. -/
structure SyslogServerState where
  Addr : String
deriving DecidableEq, Repr

/-- An `os.Process` handle. -/
structure Process where
  Pid : Int
deriving DecidableEq, Repr

/-- The fields of `UniversalExecutor` the Unix file reads or writes. The
pointers the code tests against nil (`ctx`, `cmd.SysProcAttr`,
`command.TaskKillSignal`) and the fields it assigns (`syslogChan`,
`syslogServer`) are options; `command` and the two sinks `lro` and `lre`,
which the code dereferences without a test, are present, and the two sinks
are two distinct objects. -/
structure UniversalExecutor where
  cmd : Cmd
  ctx : Option ExecutorContext
  command : ExecCommand
  syslogServer : Option SyslogServer
  syslogChan : Option Chan
  lro : Writer
  lre : Writer
deriving DecidableEq, Repr

/-- Which of the executor's two sinks a write goes to. -/
inductive Sink where
  | lre
  | lro
deriving DecidableEq, Repr

/-- A task started with a `go` statement. -/
inductive Task where
  | syslogServerStart (srv : SyslogServer)
  | collectLogs (we wo : Writer)
deriving DecidableEq, Repr

/-- An externally visible action of the executor. -/
inductive Event where
  | makeChan (capacity : Nat)
  | getListener (lower upper : Nat)
  | logPrintf (line : String)
  | configureLoggers
  | spawn (t : Task)
  | write (s : Sink) (p : List Byte)
  | syscallKill (pid : Int) (sig : Signal)
  | procKill (proc : Process)
  | procSignal (proc : Process) (sig : Signal)
deriving DecidableEq, Repr

/-- What lies outside this file: the two package constants, the helpers
`getListener` and `configureLoggers` of the executor, and the answers of
the operating system to kill and signal requests. `getListener` is the
port allocator: it may read its receiver, and it returns a listener or an
error without changing the executor. `configureLoggers` returns the
executor as it leaves it together with its error. -/
structure Env where
  noSuchProcessErr : String
  finishedErr : String
  getListener : UniversalExecutor → Nat → Nat → Except GoError Listener
  configureLoggers : UniversalExecutor → UniversalExecutor × Option GoError
  syscallKill : Int → Signal → Option GoError
  procKill : Process → Option GoError
  procSignal : Process → Signal → Option GoError

/-- The outcome of one method call. -/
structure Run (α : Type) where
  exec : UniversalExecutor
  events : List Event
  ret : α

/-- Unary minus on a Go `int` (64 bits, two's complement). -/
def negInt (x : Int) : Int := (-x + 2 ^ 63) % 2 ^ 64 - 2 ^ 63

/-! ## The methods -/

/-- Text of the error of a launch without context. -/
def contextNotSet : GoError :=
  ⟨"SetContext must be called before launching the Syslog Server"⟩

/-- The method `LaunchSyslogServer`. -/
def LaunchSyslogServer (env : Env) (e : UniversalExecutor) :
    Run (Except GoError SyslogServerState) :=
  match e.ctx with
  | none => { exec := e, events := [], ret := .error contextNotSet }
  | some ctx =>
    let e1 := { e with syslogChan := some { capacity := 2048 } }
    let ev1 := [Event.makeChan 2048, Event.getListener ctx.PortLowerBound ctx.PortUpperBound]
    match env.getListener e1 ctx.PortLowerBound ctx.PortUpperBound with
    | .error err => { exec := e1, events := ev1, ret := .error err }
    | .ok l =>
      let ev2 := ev1 ++
        [Event.logPrintf ("[DEBUG] syslog-server: launching syslog server on addr: " ++ l.addr),
         Event.configureLoggers]
      match env.configureLoggers e1 with
      | (e2, some err) => { exec := e2, events := ev2, ret := .error err }
      | (e2, none) =>
        let srv : SyslogServer := { listener := l, messages := e2.syslogChan }
        let e3 := { e2 with syslogServer := some srv }
        { exec := e3,
          events := ev2 ++
            [Event.spawn (Task.syslogServerStart srv), Event.spawn (Task.collectLogs e3.lre e3.lro)],
          ret := .ok { Addr := l.network ++ "://" ++ l.addr } }

/-- One iteration of the loop of `collectLogs`: the results of the two
`Write` calls are dropped, as in the source. -/
def collectStep (e : UniversalExecutor) (logParts : SyslogMessage) :
    UniversalExecutor × List Event :=
  if logParts.Severity = LOG_ERR then
    let w1 := (e.lre.Write logParts.Message).1
    let w2 := (w1.Write newline).1
    ({ e with lre := w2 }, [Event.write Sink.lre logParts.Message, Event.write Sink.lre newline])
  else
    let w1 := (e.lro.Write logParts.Message).1
    let w2 := (w1.Write newline).1
    ({ e with lro := w2 }, [Event.write Sink.lro logParts.Message, Event.write Sink.lro newline])

/-- The loop `for logParts := range e.syslogChan` over the messages the
channel delivers before it is closed. -/
def collectLoop (e : UniversalExecutor) : List SyslogMessage → UniversalExecutor × List Event
  | [] => (e, [])
  | logParts :: rest =>
    let s := collectStep e logParts
    let r := collectLoop s.1 rest
    (r.1, s.2 ++ r.2)

/-- The method `collectLogs(we, wo)`, run on the sequence `delivered` of
messages received from `e.syslogChan` up to its close. The two arguments
are not used by the body, which writes to `e.lre` and `e.lro`. Ranging
over a nil channel never yields and never ends: the result is `none`. -/
def collectLogs (e : UniversalExecutor) (_we _wo : Writer) (delivered : List SyslogMessage) :
    Option (Run Unit) :=
  match e.syslogChan with
  | none => none
  | some _ =>
    let r := collectLoop e delivered
    some { exec := r.1, events := r.2, ret := () }

/-- The method `setNewProcessGroup`. -/
def setNewProcessGroup (e : UniversalExecutor) : Run (Option GoError) :=
  let attr : SysProcAttr :=
    match e.cmd.SysProcAttr with
    | none => SysProcAttr.zero
    | some a => a
  { exec := { e with cmd := { e.cmd with SysProcAttr := some { attr with Setpgid := true } } },
    events := [],
    ret := none }

/-- The method `cleanupChildProcesses`. -/
def cleanupChildProcesses (env : Env) (e : UniversalExecutor) (proc : Process) :
    Run (Option GoError) :=
  match e.cmd.SysProcAttr with
  | some attr =>
    if attr.Setpgid then
      let ev := [Event.syscallKill (negInt proc.Pid) SIGKILL]
      match env.syscallKill (negInt proc.Pid) SIGKILL with
      | some err =>
        if err.text ≠ env.noSuchProcessErr then { exec := e, events := ev, ret := some err }
        else { exec := e, events := ev, ret := none }
      | none => { exec := e, events := ev, ret := none }
    else { exec := e, events := [Event.procKill proc], ret := env.procKill proc }
  | none => { exec := e, events := [Event.procKill proc], ret := env.procKill proc }

/-- The signal `shutdownProcess` resolves before delivering it: the
variable `osSignal` after the first `if` of the body. -/
def osSignal (e : UniversalExecutor) : Signal :=
  match e.command.TaskKillSignal with
  | some s => s
  | none => Interrupt

/-- The method `shutdownProcess`. -/
def shutdownProcess (env : Env) (e : UniversalExecutor) (proc : Process) :
    Run (Option GoError) :=
  let ev := [Event.procSignal proc (osSignal e)]
  match env.procSignal proc (osSignal e) with
  | some err =>
    if err.text ≠ env.finishedErr then
      { exec := e, events := ev, ret := some ⟨"executor.shutdown error: " ++ err.text⟩ }
    else { exec := e, events := ev, ret := none }
  | none => { exec := e, events := ev, ret := none }

/-! ## Expected behaviour, stated from the outside -/

/-- Whether a message has the error severity. -/
def isErr (m : SyslogMessage) : Bool := decide (m.Severity = LOG_ERR)

/-- The bytes of a sequence of messages, each followed by one newline. -/
def records (ms : List SyslogMessage) : List Byte :=
  ms.flatMap (fun m => m.Message ++ newline)

/-- The sink chosen by the severity of a message. -/
def sinkOf (m : SyslogMessage) : Sink := if m.Severity = LOG_ERR then Sink.lre else Sink.lro

/-- The two writes due for a message: its bytes, then one newline. -/
def writesOf (m : SyslogMessage) : List Event :=
  [Event.write (sinkOf m) m.Message, Event.write (sinkOf m) newline]

/-- The same executor with sinks that never fail. -/
def withReliableSinks (e : UniversalExecutor) : UniversalExecutor :=
  { e with lre := { e.lre with plan := [] }, lro := { e.lro with plan := [] } }

/-! ## Concrete executors and environments -/

/-- An executor as first constructed: no context, no process attributes,
no kill signal configured, no channel, empty sinks. -/
def freshExecutor : UniversalExecutor :=
  { cmd := { Path := "/bin/sleep", Args := ["sleep", "60"], SysProcAttr := none },
    ctx := none,
    command := { Cmd := "/bin/sleep", Args := ["60"], TaskKillSignal := none },
    syslogServer := none,
    syslogChan := none,
    lro := { data := [], plan := [] },
    lre := { data := [], plan := [] } }

/-- The fresh executor after `SetContext` with the port range 20000 to 20001. -/
def executorWithContext : UniversalExecutor :=
  { freshExecutor with ctx := some { PortLowerBound := 20000, PortUpperBound := 20001 } }

/-- The error of a port allocation that found no free port. -/
def portUnavailable : GoError := ⟨"No free port found"⟩

/-- An environment in which the child has exited and every port is taken:
no listener can be obtained, the group kill answers `ESRCH` and the process
handle answers that the process has finished. -/
def envDeadProcess : Env :=
  { noSuchProcessErr := "no such process",
    finishedErr := "os: process already finished",
    getListener := fun _ _ _ => .error portUnavailable,
    configureLoggers := fun e => (e, none),
    syscallKill := fun _ _ => some ⟨"no such process"⟩,
    procKill := fun _ => some ⟨"os: process already finished"⟩,
    procSignal := fun _ _ => some ⟨"os: process already finished"⟩ }

/-- An environment in which the child runs and a port is free: a TCP
listener on port 20000 is obtained and every kill or signal is delivered. -/
def envLiveProcess : Env :=
  { noSuchProcessErr := "no such process",
    finishedErr := "os: process already finished",
    getListener := fun _ _ _ => .ok { network := "tcp", addr := "127.0.0.1:20000" },
    configureLoggers := fun e => (e, none),
    syscallKill := fun _ _ => none,
    procKill := fun _ => none,
    procSignal := fun _ _ => none }

/-- An environment in which signal delivery is refused. -/
def envNotPermitted : Env :=
  { envLiveProcess with
    syscallKill := fun _ _ => some ⟨"operation not permitted"⟩,
    procKill := fun _ => some ⟨"operation not permitted"⟩,
    procSignal := fun _ _ => some ⟨"operation not permitted"⟩ }

/-- A child process handle. -/
def childProcess : Process := { Pid := 4242 }

/-- The fresh executor after one call of `setNewProcessGroup`. -/
def groupExecutor : UniversalExecutor := (setNewProcessGroup freshExecutor).exec

/-- An executor whose command asks for signal 15 (`SIGTERM`) on shutdown. -/
def termExecutor : UniversalExecutor :=
  { freshExecutor with command := { freshExecutor.command with TaskKillSignal := some 15 } }

/-- The fresh executor after a launch made its channel. -/
def relayExecutor : UniversalExecutor :=
  { freshExecutor with syslogChan := some { capacity := 2048 } }

/-- The relay executor with an error sink whose first and third writes
fail and a standard sink whose second write fails. -/
def faultyExecutor : UniversalExecutor :=
  { relayExecutor with
    lre := { data := [], plan := [some 0, none, some 0] },
    lro := { data := [], plan := [none, some 0] } }

/-- Three messages: error "a", warning "b", error "c". -/
def sampleMessages : List SyslogMessage :=
  [{ Message := [97], Severity := 3 }, { Message := [98], Severity := 4 },
   { Message := [99], Severity := 3 }]

/-! ## Launching the syslog server -/

/-- C6: a launch on an executor whose context was never set returns the
"SetContext must be called" error and no server state, performs no action
at all (no channel construction, no port allocation, no logging, no task
start) and leaves the executor exactly as it was. -/
theorem launch_without_context (env : Env) (e : UniversalExecutor) (h : e.ctx = none) :
    (LaunchSyslogServer env e).ret = .error contextNotSet ∧
    (∀ st, (LaunchSyslogServer env e).ret ≠ .ok st) ∧
    (LaunchSyslogServer env e).events = [] ∧
    (LaunchSyslogServer env e).exec = e := by
  simp [LaunchSyslogServer, h]

/-- Witness of `launch_without_context` on the fresh executor. -/
theorem launch_without_context_witness :
    freshExecutor.ctx = none ∧
    (LaunchSyslogServer envLiveProcess freshExecutor).ret = .error contextNotSet ∧
    (∀ st, (LaunchSyslogServer envLiveProcess freshExecutor).ret ≠ .ok st) ∧
    (LaunchSyslogServer envLiveProcess freshExecutor).events = [] ∧
    (LaunchSyslogServer envLiveProcess freshExecutor).exec = freshExecutor :=
  ⟨rfl, launch_without_context envLiveProcess freshExecutor rfl⟩

/-- C7: whenever a launch succeeds, the context is set, a listener was
obtained for the context's lower and upper port bounds, and the returned
address is that listener's network name, then "://", then its address
string. -/
theorem launch_address (env : Env) (e : UniversalExecutor) (st : SyslogServerState)
    (h : (LaunchSyslogServer env e).ret = .ok st) :
    ∃ ctx l, e.ctx = some ctx ∧
      env.getListener { e with syslogChan := some { capacity := 2048 } }
        ctx.PortLowerBound ctx.PortUpperBound = .ok l ∧
      st.Addr = l.network ++ "://" ++ l.addr := by
  unfold LaunchSyslogServer at h
  split at h
  · simp at h
  · rename_i ctx hc
    dsimp only at h
    split at h
    · simp at h
    · rename_i l hl
      split at h
      · simp at h
      · refine ⟨ctx, l, hc, hl, ?_⟩
        injection h with h
        rw [← h]

/-- Witness of `launch_address`: with a TCP listener on 127.0.0.1:20000 the
launch succeeds with the address "tcp://127.0.0.1:20000". -/
theorem launch_address_witness :
    (LaunchSyslogServer envLiveProcess executorWithContext).ret
        = .ok { Addr := "tcp://127.0.0.1:20000" } ∧
    ∃ ctx l, executorWithContext.ctx = some ctx ∧
      envLiveProcess.getListener { executorWithContext with syslogChan := some { capacity := 2048 } }
        ctx.PortLowerBound ctx.PortUpperBound = .ok l ∧
      ({ Addr := "tcp://127.0.0.1:20000" } : SyslogServerState).Addr
        = l.network ++ "://" ++ l.addr :=
  ⟨rfl, launch_address envLiveProcess executorWithContext _ rfl⟩

/-- C10 as stated fails: with the context set, no channel yet and every
port taken, the launch returns the port error but the executor's channel
field is no longer what it was. -/
theorem launch_port_failure_changes_channel :
    executorWithContext.ctx = some { PortLowerBound := 20000, PortUpperBound := 20001 } ∧
    (∀ x, envDeadProcess.getListener x 20000 20001 = .error portUnavailable) ∧
    (LaunchSyslogServer envDeadProcess executorWithContext).ret = .error portUnavailable ∧
    executorWithContext.syslogChan = none ∧
    (LaunchSyslogServer envDeadProcess executorWithContext).exec.syslogChan
      = some { capacity := 2048 } ∧
    (LaunchSyslogServer envDeadProcess executorWithContext).exec.syslogChan
      ≠ executorWithContext.syslogChan :=
  ⟨rfl, fun _ => rfl, rfl, rfl, rfl, by decide⟩

/-- C10, amended: the channel is made before the port is allocated. In
every launch with the context set where port allocation fails, the launch
returns that error, the only actions are the construction of a channel of
capacity 2048 followed by the port allocation for the context's bounds, no
task is started, and the executor afterwards is the one before with its
channel field replaced by the new channel. -/
theorem launch_port_failure (env : Env) (e : UniversalExecutor) (ctx : ExecutorContext)
    (err : GoError) (hc : e.ctx = some ctx)
    (hl : env.getListener { e with syslogChan := some { capacity := 2048 } }
      ctx.PortLowerBound ctx.PortUpperBound = .error err) :
    (LaunchSyslogServer env e).ret = .error err ∧
    (LaunchSyslogServer env e).events
      = [Event.makeChan 2048, Event.getListener ctx.PortLowerBound ctx.PortUpperBound] ∧
    (∀ t, Event.spawn t ∉ (LaunchSyslogServer env e).events) ∧
    (LaunchSyslogServer env e).exec = { e with syslogChan := some { capacity := 2048 } } := by
  unfold LaunchSyslogServer
  split
  · rename_i h
    rw [hc] at h
    cases h
  · rename_i c h
    rw [hc] at h
    cases h
    dsimp only
    rw [hl]
    simp

/-- Witness of `launch_port_failure` with every port of 20000 to 20001 taken. -/
theorem launch_port_failure_witness :
    (LaunchSyslogServer envDeadProcess executorWithContext).ret = .error portUnavailable ∧
    (LaunchSyslogServer envDeadProcess executorWithContext).events
      = [Event.makeChan 2048, Event.getListener 20000 20001] ∧
    (∀ t, Event.spawn t ∉ (LaunchSyslogServer envDeadProcess executorWithContext).events) ∧
    (LaunchSyslogServer envDeadProcess executorWithContext).exec
      = { executorWithContext with syslogChan := some { capacity := 2048 } } :=
  launch_port_failure envDeadProcess executorWithContext
    { PortLowerBound := 20000, PortUpperBound := 20001 } portUnavailable rfl rfl

/-! ## Process groups, forced cleanup and graceful shutdown -/

/-- Negation on a Go `int` is the mathematical one away from the least value. -/
theorem negInt_eq_neg (x : Int) (h1 : -(2 ^ 63) < x) (h2 : x < 2 ^ 63) : negInt x = -x := by
  unfold negInt
  omega

/-- C8: `setNewProcessGroup` returns no error on a first and on a second
call, the second call leaves the executor (hence its command
configuration) exactly as the first call left it, and in that
configuration `SysProcAttr` is set with `Setpgid` true. This holds whether
`SysProcAttr` was unset or set before. -/
theorem setNewProcessGroup_idempotent (e : UniversalExecutor) :
    (setNewProcessGroup e).ret = none ∧
    (setNewProcessGroup (setNewProcessGroup e).exec).ret = none ∧
    (setNewProcessGroup (setNewProcessGroup e).exec).exec = (setNewProcessGroup e).exec ∧
    (∃ a, (setNewProcessGroup e).exec.cmd.SysProcAttr = some a ∧ a.Setpgid = true) := by
  refine ⟨rfl, rfl, ?_, ?_⟩
  · simp [setNewProcessGroup]
  · simp [setNewProcessGroup]

/-- C2: forced cleanup of a process that is already gone. With a process
group the "no such process" answer of the group kill is turned into
success, on a first call and on every later one. Without a process group
the answer of the handle is passed on untouched: on the fresh executor
(`SysProcAttr` unset) and a child that has finished, the call returns the
error "os: process already finished". -/
theorem cleanupChildProcesses_dead_process :
    (∀ (env : Env) (e : UniversalExecutor) (proc : Process) (a : SysProcAttr),
      e.cmd.SysProcAttr = some a → a.Setpgid = true →
      env.syscallKill (negInt proc.Pid) SIGKILL = some ⟨env.noSuchProcessErr⟩ →
      (cleanupChildProcesses env e proc).ret = none ∧
      (cleanupChildProcesses env (cleanupChildProcesses env e proc).exec proc).ret = none) ∧
    freshExecutor.cmd.SysProcAttr = none ∧
    envDeadProcess.procKill childProcess = some ⟨envDeadProcess.finishedErr⟩ ∧
    (cleanupChildProcesses envDeadProcess freshExecutor childProcess).ret
      = some ⟨"os: process already finished"⟩ := by
  refine ⟨?_, rfl, rfl, rfl⟩
  intro env e proc a ha hs hk
  simp [cleanupChildProcesses, ha, hs, hk]

/-- C3: `shutdownProcess` returns an error exactly when the delivery of the
resolved signal fails with an error whose text is not `finishedErr`; the
error returned then has the text "executor.shutdown error: " followed by
the text of the cause. When the delivery fails with the `finishedErr` text
(the process has already exited) or succeeds, the call returns no error. -/
theorem shutdownProcess_error_iff (env : Env) (e : UniversalExecutor) (proc : Process) :
    ((∃ r, (shutdownProcess env e proc).ret = some r) ↔
      ∃ cause, env.procSignal proc (osSignal e) = some cause ∧ cause.text ≠ env.finishedErr) ∧
    (∀ cause, env.procSignal proc (osSignal e) = some cause → cause.text ≠ env.finishedErr →
      (shutdownProcess env e proc).ret = some ⟨"executor.shutdown error: " ++ cause.text⟩) ∧
    (∀ cause, env.procSignal proc (osSignal e) = some cause → cause.text = env.finishedErr →
      (shutdownProcess env e proc).ret = none) ∧
    (env.procSignal proc (osSignal e) = none → (shutdownProcess env e proc).ret = none) := by
  unfold shutdownProcess
  cases hs : env.procSignal proc (osSignal e) with
  | none => simp
  | some err =>
    by_cases ht : err.text = env.finishedErr
    · simp [ht]
    · simp [ht]

/-- Witness of `shutdownProcess_error_iff`: a refused delivery is returned
wrapped, a delivery to a finished process is a success. -/
theorem shutdownProcess_error_iff_witness :
    (shutdownProcess envNotPermitted freshExecutor childProcess).ret
      = some ⟨"executor.shutdown error: " ++ "operation not permitted"⟩ ∧
    (shutdownProcess envDeadProcess freshExecutor childProcess).ret = none :=
  ⟨(shutdownProcess_error_iff envNotPermitted freshExecutor childProcess).2.1
      ⟨"operation not permitted"⟩ rfl (by decide),
   (shutdownProcess_error_iff envDeadProcess freshExecutor childProcess).2.2.1
      ⟨"os: process already finished"⟩ rfl rfl⟩

/-- C4: `cleanupChildProcesses` performs exactly one kill action. When
`SysProcAttr` is set with `Setpgid` true the action is `SIGKILL` sent with
`syscall.Kill` to the negated pid, and the handle is never killed
directly. When `SysProcAttr` is unset or `Setpgid` is false the action is
the kill of the process handle, and `syscall.Kill` is never called. The
negated pid is the mathematical negation for every pid above the least
64-bit integer. -/
theorem cleanupChildProcesses_kill_action (env : Env) (e : UniversalExecutor) (proc : Process) :
    (cleanupChildProcesses env e proc).events.length = 1 ∧
    (∀ a, e.cmd.SysProcAttr = some a → a.Setpgid = true →
      (cleanupChildProcesses env e proc).events = [Event.syscallKill (negInt proc.Pid) SIGKILL] ∧
      ∀ p, Event.procKill p ∉ (cleanupChildProcesses env e proc).events) ∧
    ((e.cmd.SysProcAttr = none ∨ ∃ a, e.cmd.SysProcAttr = some a ∧ a.Setpgid = false) →
      (cleanupChildProcesses env e proc).events = [Event.procKill proc] ∧
      ∀ pid sig, Event.syscallKill pid sig ∉ (cleanupChildProcesses env e proc).events) ∧
    (-(2 ^ 63) < proc.Pid → proc.Pid < 2 ^ 63 → negInt proc.Pid = -proc.Pid) := by
  refine ⟨?_, ?_, ?_, negInt_eq_neg proc.Pid⟩
  · unfold cleanupChildProcesses
    cases e.cmd.SysProcAttr with
    | none => rfl
    | some a =>
      by_cases hsp : a.Setpgid = true
      · simp only [hsp, if_true]
        cases env.syscallKill (negInt proc.Pid) SIGKILL with
        | none => rfl
        | some err => by_cases ht : err.text = env.noSuchProcessErr <;> simp [ht]
      · simp [hsp]
  · intro a ha hs
    unfold cleanupChildProcesses
    simp only [ha, hs, if_true]
    cases env.syscallKill (negInt proc.Pid) SIGKILL with
    | none => simp
    | some err => by_cases ht : err.text = env.noSuchProcessErr <;> simp [ht]
  · intro h
    unfold cleanupChildProcesses
    rcases h with h | ⟨a, ha, hs⟩
    · simp [h]
    · simp [ha, hs]

/-- Witness of `cleanupChildProcesses_kill_action`: with a process group the
child 4242 is killed through pid -4242, without one through its handle. -/
theorem cleanupChildProcesses_kill_action_witness :
    (cleanupChildProcesses envLiveProcess groupExecutor childProcess).events
      = [Event.syscallKill (-4242) SIGKILL] ∧
    (cleanupChildProcesses envLiveProcess freshExecutor childProcess).events
      = [Event.procKill childProcess] :=
  ⟨by
    have h := (cleanupChildProcesses_kill_action envLiveProcess groupExecutor childProcess).2.1
      { SysProcAttr.zero with Setpgid := true } rfl rfl
    have hn := (cleanupChildProcesses_kill_action envLiveProcess groupExecutor childProcess).2.2.2
      (by decide) (by decide)
    rw [h.1, hn]; rfl,
   ((cleanupChildProcesses_kill_action envLiveProcess freshExecutor childProcess).2.2.1
      (Or.inl rfl)).1⟩

/-- C5: `shutdownProcess` delivers exactly one signal to the given process:
the configured `TaskKillSignal` when it is set, the interrupt signal when
it is not. Two calls on the same process whose commands agree on
`TaskKillSignal` deliver the same signal, whatever else differs in the
executor or in the environment. -/
theorem shutdownProcess_signal (env : Env) (e : UniversalExecutor) (proc : Process) :
    (∀ s, e.command.TaskKillSignal = some s →
      (shutdownProcess env e proc).events = [Event.procSignal proc s]) ∧
    (e.command.TaskKillSignal = none →
      (shutdownProcess env e proc).events = [Event.procSignal proc Interrupt]) ∧
    (∀ (env2 : Env) (e2 : UniversalExecutor),
      e2.command.TaskKillSignal = e.command.TaskKillSignal →
      (shutdownProcess env2 e2 proc).events = (shutdownProcess env e proc).events) := by
  have key : ∀ (v : Env) (x : UniversalExecutor),
      (shutdownProcess v x proc).events = [Event.procSignal proc (osSignal x)] := by
    intro v x
    unfold shutdownProcess
    cases v.procSignal proc (osSignal x) with
    | none => rfl
    | some err => by_cases ht : err.text = v.finishedErr <;> simp [ht]
  refine ⟨?_, ?_, ?_⟩
  · intro s hs
    rw [key]; simp [osSignal, hs]
  · intro hs
    rw [key]; simp [osSignal, hs]
  · intro env2 e2 h
    rw [key, key]; simp [osSignal, h]

/-- Witness of `shutdownProcess_signal`: signal 15 when configured, the
interrupt signal otherwise. -/
theorem shutdownProcess_signal_witness :
    (shutdownProcess envLiveProcess termExecutor childProcess).events
      = [Event.procSignal childProcess 15] ∧
    (shutdownProcess envDeadProcess freshExecutor childProcess).events
      = [Event.procSignal childProcess Interrupt] :=
  ⟨(shutdownProcess_signal envLiveProcess termExecutor childProcess).1 15 rfl,
   (shutdownProcess_signal envDeadProcess freshExecutor childProcess).2.1 rfl⟩

/-! ## The log collector -/

/-- A write on a reliable sink appends all the bytes and leaves the sink reliable. -/
theorem Writer.Write_reliable (w : Writer) (p : List Byte) (h : w.reliable) :
    (w.Write p).1.data = w.data ++ p ∧ (w.Write p).1.reliable := by
  unfold Writer.reliable at h
  unfold Writer.Write
  cases hp : w.plan with
  | nil => simp [Writer.reliable]
  | cons o rest =>
    rw [hp] at h
    have ho : o = none := h o (by simp)
    subst ho
    refine ⟨rfl, ?_⟩
    intro o ho
    exact h o (by simp [ho])

/-- One iteration of the collector on reliable sinks. -/
theorem collectStep_reliable (e : UniversalExecutor) (m : SyslogMessage)
    (hre : e.lre.reliable) (hro : e.lro.reliable) :
    (collectStep e m).1.lre.data = e.lre.data ++ records ([m].filter isErr) ∧
    (collectStep e m).1.lro.data = e.lro.data ++ records ([m].filter (fun x => !isErr x)) ∧
    (collectStep e m).1.lre.reliable ∧ (collectStep e m).1.lro.reliable := by
  unfold collectStep
  by_cases hs : m.Severity = LOG_ERR
  · have h1 := Writer.Write_reliable e.lre m.Message hre
    have h2 := Writer.Write_reliable (e.lre.Write m.Message).1 newline h1.2
    simp [hs, isErr, records, h1.1, h2.1, h2.2, hro]
  · have h1 := Writer.Write_reliable e.lro m.Message hro
    have h2 := Writer.Write_reliable (e.lro.Write m.Message).1 newline h1.2
    simp [hs, isErr, records, h1.1, h2.1, h2.2, hre]

/-- The bytes of two runs of messages are the bytes of one after the other. -/
theorem records_append (xs ys : List SyslogMessage) :
    records (xs ++ ys) = records xs ++ records ys := by
  simp [records, List.flatMap_append]

/-- What the whole loop leaves on reliable sinks. -/
theorem collectLoop_reliable (msgs : List SyslogMessage) :
    ∀ e : UniversalExecutor, e.lre.reliable → e.lro.reliable →
      (collectLoop e msgs).1.lre.data = e.lre.data ++ records (msgs.filter isErr) ∧
      (collectLoop e msgs).1.lro.data
        = e.lro.data ++ records (msgs.filter (fun x => !isErr x)) := by
  induction msgs with
  | nil => intro e _ _; simp [collectLoop, records]
  | cons m rest ih =>
    intro e hre hro
    obtain ⟨h1, h2, h3, h4⟩ := collectStep_reliable e m hre hro
    obtain ⟨i1, i2⟩ := ih (collectStep e m).1 h3 h4
    have f1 : (m :: rest).filter isErr = [m].filter isErr ++ rest.filter isErr := by
      rw [← List.filter_append]; rfl
    have f2 : (m :: rest).filter (fun x => !isErr x)
        = [m].filter (fun x => !isErr x) ++ rest.filter (fun x => !isErr x) := by
      rw [← List.filter_append]; rfl
    simp only [collectLoop]
    rw [i1, i2, h1, h2, f1, f2, records_append, records_append]
    simp [List.append_assoc]

/-- The writes one iteration attempts do not depend on the sinks. -/
theorem collectStep_events (e : UniversalExecutor) (m : SyslogMessage) :
    (collectStep e m).2 = writesOf m := by
  unfold collectStep writesOf sinkOf
  by_cases hs : m.Severity = LOG_ERR <;> simp [hs]

/-- The writes the whole loop attempts. -/
theorem collectLoop_events (msgs : List SyslogMessage) :
    ∀ e : UniversalExecutor, (collectLoop e msgs).2 = msgs.flatMap writesOf := by
  induction msgs with
  | nil => intro e; rfl
  | cons m rest ih =>
    intro e
    simp only [collectLoop, List.flatMap_cons]
    rw [ih, collectStep_events]

/-- C1 as stated fails: the results of `Write` are dropped, so bytes a sink
refuses are lost. On empty sinks whose writes partly fail, the messages
error "a", warning "b", error "c" leave "\n\n" on the error sink instead of
"a\nc\n", and "b" on the standard sink instead of "b\n". -/
theorem collectLogs_failing_sink_loses_bytes :
    faultyExecutor.syslogChan = some { capacity := 2048 } ∧
    faultyExecutor.lre.data = [] ∧ faultyExecutor.lro.data = [] ∧
    records (sampleMessages.filter isErr) = [97, 10, 99, 10] ∧
    records (sampleMessages.filter (fun m => !isErr m)) = [98, 10] ∧
    ∃ r, collectLogs faultyExecutor faultyExecutor.lre faultyExecutor.lro sampleMessages = some r ∧
      r.exec.lre.data = [10, 10] ∧
      r.exec.lro.data = [98] ∧
      r.exec.lre.data ≠ faultyExecutor.lre.data ++ records (sampleMessages.filter isErr) ∧
      r.exec.lro.data
        ≠ faultyExecutor.lro.data ++ records (sampleMessages.filter (fun m => !isErr m)) :=
  ⟨rfl, rfl, rfl, by decide, by decide,
   { exec := (collectLoop faultyExecutor sampleMessages).1,
     events := (collectLoop faultyExecutor sampleMessages).2, ret := () },
   rfl, by decide, by decide, by decide, by decide⟩

/-- C1, amended: when the channel delivers the finite sequence `msgs` and
is then closed, and every write on both sinks succeeds, `collectLogs`
returns and the error sink `lre` holds what it held before followed by, in
channel order, the bytes and one newline of every message of severity
`LOG_ERR`, while the standard sink `lro` holds what it held before followed
by the same for every other message. The two subsequences together are a
rearrangement of `msgs`: every message is on exactly one sink, exactly
once. -/
theorem collectLogs_routes (e : UniversalExecutor) (we wo : Writer) (ch : Chan)
    (msgs : List SyslogMessage) (hch : e.syslogChan = some ch)
    (hre : e.lre.reliable) (hro : e.lro.reliable) :
    ∃ r, collectLogs e we wo msgs = some r ∧
      r.exec.lre.data = e.lre.data ++ records (msgs.filter isErr) ∧
      r.exec.lro.data = e.lro.data ++ records (msgs.filter (fun m => !isErr m)) ∧
      (∀ m, isErr m = true ↔ m.Severity = LOG_ERR) ∧
      (msgs.filter isErr ++ msgs.filter (fun m => !isErr m)).Perm msgs := by
  obtain ⟨h1, h2⟩ := collectLoop_reliable msgs e hre hro
  refine ⟨_, by simp only [collectLogs, hch]; rfl, h1, h2, ?_, List.filter_append_perm _ _⟩
  intro m
  simp [isErr]

/-- Witness of `collectLogs_routes`: error "a", warning "b", error "c" leave
"a\nc\n" on the error sink and "b\n" on the standard sink. -/
theorem collectLogs_routes_witness :
    ∃ r, collectLogs relayExecutor relayExecutor.lre relayExecutor.lro sampleMessages = some r ∧
      r.exec.lre.data = [97, 10, 99, 10] ∧ r.exec.lro.data = [98, 10] := by
  obtain ⟨r, hr, h1, h2, _, _⟩ :=
    collectLogs_routes relayExecutor relayExecutor.lre relayExecutor.lro { capacity := 2048 }
      sampleMessages rfl (by decide) (by decide)
  exact ⟨r, hr, by rw [h1]; decide, by rw [h2]; decide⟩

/-- C9: whatever the sinks answer to each write, `collectLogs` on a
delivered sequence returns after having attempted, for every message in
channel order, the write of the message bytes and then the write of one
newline on the sink chosen by the severity; this sequence of attempted
writes is the one of the same run with sinks that never fail. -/
theorem collectLogs_write_attempts (e : UniversalExecutor) (we wo : Writer) (ch : Chan)
    (msgs : List SyslogMessage) (hch : e.syslogChan = some ch) :
    ∃ r r0, collectLogs e we wo msgs = some r ∧
      collectLogs (withReliableSinks e) we wo msgs = some r0 ∧
      r.events = msgs.flatMap writesOf ∧
      r0.events = r.events ∧
      (∀ m, (sinkOf m = Sink.lre ↔ m.Severity = LOG_ERR) ∧
        writesOf m = [Event.write (sinkOf m) m.Message, Event.write (sinkOf m) [10]]) := by
  refine ⟨_, _, by simp only [collectLogs, hch]; rfl,
    by simp only [collectLogs, withReliableSinks, hch]; rfl, ?_, ?_, ?_⟩
  · exact collectLoop_events msgs e
  · exact (collectLoop_events msgs _).trans (collectLoop_events msgs e).symm
  · intro m
    refine ⟨?_, rfl⟩
    unfold sinkOf
    by_cases hs : m.Severity = LOG_ERR <;> simp [hs]

/-- Witness of `collectLogs_write_attempts`: with three of the six writes
failing, all six writes are still attempted, in order. -/
theorem collectLogs_write_attempts_witness :
    ∃ r, collectLogs faultyExecutor faultyExecutor.lre faultyExecutor.lro sampleMessages = some r ∧
      r.events = [Event.write Sink.lre [97], Event.write Sink.lre [10],
                  Event.write Sink.lro [98], Event.write Sink.lro [10],
                  Event.write Sink.lre [99], Event.write Sink.lre [10]] ∧
      r.exec.lre.data = [10, 10] ∧ r.exec.lro.data = [98] := by
  obtain ⟨r, _, hr, _, he, _, _⟩ :=
    collectLogs_write_attempts faultyExecutor faultyExecutor.lre faultyExecutor.lro
      { capacity := 2048 } sampleMessages rfl
  refine ⟨r, hr, by rw [he]; decide, ?_, ?_⟩
  · have h : r = { exec := (collectLoop faultyExecutor sampleMessages).1,
                   events := (collectLoop faultyExecutor sampleMessages).2, ret := () } := by
      have h2 : collectLogs faultyExecutor faultyExecutor.lre faultyExecutor.lro sampleMessages
          = some { exec := (collectLoop faultyExecutor sampleMessages).1,
                   events := (collectLoop faultyExecutor sampleMessages).2, ret := () } := rfl
      rw [hr] at h2
      exact Option.some.inj h2
    rw [h]; decide
  · have h : r = { exec := (collectLoop faultyExecutor sampleMessages).1,
                   events := (collectLoop faultyExecutor sampleMessages).2, ret := () } := by
      have h2 : collectLogs faultyExecutor faultyExecutor.lre faultyExecutor.lro sampleMessages
          = some { exec := (collectLoop faultyExecutor sampleMessages).1,
                   events := (collectLoop faultyExecutor sampleMessages).2, ret := () } := rfl
      rw [hr] at h2
      exact Option.some.inj h2
    rw [h]; decide

end Executor
